import Mathlib

/-!
Shallow embedding of the market cross-sectional analytics engine of the
Stock_Key_Indicators repository, together with theorems settling the
specification claims about it.

The embedding follows the Python source:
* `src/analysis/analyzer.py`   (`MarketAnalyzer`)
* `src/analysis/calculator.py` (`FinancialCalculator`)
* `src/data_provider/repository.py` (`Repository` median-cache operations)
* `src/orchestrator.py`        (`Orchestrator`)

Machine floats are modelled as rationals (`ℚ`); Python `None` and NaN are
modelled explicitly where the code tests for them.  Stateful code (the
two-tier median cache) is modelled by explicit state passing; the number of
invocations of the persistence layer's save operation and whether the numeric
median computation ran are returned as observations alongside the result.
-/

/-- A Python `Optional[float]` sample member as the analyzer receives it:
`None`, NaN, or a finite number (modelled as a rational). -/
inductive PyFloat where
  | none : PyFloat
  | nan  : PyFloat
  | val  : ℚ → PyFloat
deriving DecidableEq

/-- The filtering step `[v for v in indicator_values if v is not None and not
np.isnan(v)]` used by `calculate_market_median`, `calculate_percentile` and
`calculate_distribution` in `src/analysis/analyzer.py`. -/
def validValues (vs : List PyFloat) : List ℚ :=
  vs.filterMap fun v =>
    match v with
    | .val q => some q
    | _ => Option.none

/-- Model of `numpy.median` on a non-empty list: the middle element of the sorted list
for odd length, the average of the two middle elements for even length. -/
def npMedian (l : List ℚ) : ℚ :=
  let s := l.insertionSort (· ≤ ·)
  if l.length % 2 = 1 then s.getD (l.length / 2) 0
  else (s.getD (l.length / 2 - 1) 0 + s.getD (l.length / 2) 0) / 2

/-- One row of the `indicator_median` table (`src/models.py`), the persistent
Median Cache Entry: unique per (indicator_name, report_date, cache_version). -/
structure IndicatorMedian where
  indicator_name : String
  report_date : ℤ
  median_value : ℚ
  cache_version : String
deriving DecidableEq

/-- The key predicate used by `Repository.save_indicator_median` and
`MarketAnalyzer._get_cached_median` (`filter_by(indicator_name=...,
report_date=..., cache_version=...)`). -/
def medKeyMatch (name : String) (d : ℤ) (ver : String) (e : IndicatorMedian) : Bool :=
  e.indicator_name == name && e.report_date == d && e.cache_version == ver

/-- Model of `Repository.save_indicator_median` (`src/data_provider/repository.py`):
insert a new row unless a row with the same (indicator_name, report_date,
cache_version) already exists, in which case do nothing. -/
def save_indicator_median (db : List IndicatorMedian) (name : String) (d : ℤ)
    (m : ℚ) (ver : String) : List IndicatorMedian :=
  match db.find? (medKeyMatch name d ver) with
  | some _ => db
  | Option.none => db ++ [⟨name, d, m, ver⟩]

/-- Model of `Repository.clear_cache` (`src/data_provider/repository.py`): delete every
row whose `cache_version` equals the given version. -/
def Repository_clear_cache (ver : String) (db : List IndicatorMedian) :
    List IndicatorMedian :=
  db.filter fun e => !(e.cache_version == ver)

/-- The in-process cache key `f"{indicator_name}_{report_date}_{cache_version}"`
of `MarketAnalyzer.calculate_market_median`, modelled structurally. -/
structure MKey where
  indicator : String
  rdate : ℤ
  version : String
deriving DecidableEq

/-- Lookup in the in-process median cache (a Python dict). -/
def memLookup (c : List (MKey × ℚ)) (k : MKey) : Option ℚ :=
  (c.find? fun p => p.1 == k).map (·.2)

/-- The mutable state of a `MarketAnalyzer` instance together with the shared
persistent store: its `cache_version`, its in-process `_median_cache`, and the
`indicator_median` table it reaches through the repository. -/
structure AnalyzerState where
  cache_version : String
  median_cache : List (MKey × ℚ)
  db : List IndicatorMedian
deriving DecidableEq

/-- Model of `MarketAnalyzer._get_cached_median`: first row of the `indicator_median`
table matching (indicator_name, report_date, own cache_version). -/
def get_cached_median (s : AnalyzerState) (name : String) (d : ℤ) : Option ℚ :=
  (s.db.find? (medKeyMatch name d s.cache_version)).map (·.median_value)

/-- Observable outcome of one `calculate_market_median` call: the returned
value, the state after the call, how many times
`Repository.save_indicator_median` was invoked during the call, and whether
the `np.median` computation ran. -/
structure CalcResult where
  result : Option ℚ
  state : AnalyzerState
  saves : ℕ
  computed : Bool
deriving DecidableEq

/-- Model of `MarketAnalyzer.calculate_market_median` (`src/analysis/analyzer.py`):
check the in-process cache, then the persistent cache, and only on a miss of
both filter the sample, return `None` for an empty filtered sample, and
otherwise compute `np.median`, save it to the persistent cache, store it in
the in-process cache and return it. -/
def calculate_market_median (s : AnalyzerState) (name : String) (d : ℤ)
    (indicator_values : List PyFloat) : CalcResult :=
  let key : MKey := ⟨name, d, s.cache_version⟩
  match memLookup s.median_cache key with
  | some v => ⟨some v, s, 0, false⟩
  | Option.none =>
    match get_cached_median s name d with
    | some v => ⟨some v, { s with median_cache := (key, v) :: s.median_cache }, 0, false⟩
    | Option.none =>
      let valid := validValues indicator_values
      if valid = [] then ⟨Option.none, s, 0, false⟩
      else
        let m := npMedian valid
        ⟨some m,
         { s with db := save_indicator_median s.db name d m s.cache_version,
                  median_cache := (key, m) :: s.median_cache },
         1, true⟩

/-- Model of `MarketAnalyzer.calculate_percentile` (`src/analysis/analyzer.py`): filter
the sample, return `None` when nothing is left, and otherwise return
`np.sum(np.array(valid_values) <= value) / len(valid_values)` — the inclusive
empirical CDF of `value` in the filtered sample. -/
def calculate_percentile (value : ℚ) (indicator_values : List PyFloat) : Option ℚ :=
  let valid := validValues indicator_values
  if valid = [] then Option.none
  else some (((valid.countP fun v => decide (v ≤ value)) : ℚ) / (valid.length : ℚ))

/-- C1: on a miss of both cache tiers, `calculate_market_median` filters the
sample to its valid finite members, returns `None` (not an error) when the
filtered sample is empty, and otherwise returns the standard statistical
median of the filtered sample: for any sorted permutation of the filtered
sample, the middle element for odd size and the average of the two middle
elements for even size. -/
theorem calculate_market_median_cache_miss
    (s : AnalyzerState) (name : String) (d : ℤ) (vals : List PyFloat)
    (hmem : memLookup s.median_cache ⟨name, d, s.cache_version⟩ = Option.none)
    (hdb : get_cached_median s name d = Option.none) :
    (∀ q : ℚ, q ∈ validValues vals ↔ PyFloat.val q ∈ vals) ∧
    (validValues vals = [] →
      (calculate_market_median s name d vals).result = Option.none) ∧
    (∀ L : List ℚ, L.Perm (validValues vals) → L.Sorted (· ≤ ·) →
      validValues vals ≠ [] →
      (calculate_market_median s name d vals).result =
        some (if (validValues vals).length % 2 = 1
              then L.getD ((validValues vals).length / 2) 0
              else (L.getD ((validValues vals).length / 2 - 1) 0 +
                    L.getD ((validValues vals).length / 2) 0) / 2)) := by
  refine ⟨?_, ?_, ?_⟩
  · intro q
    constructor
    · intro hq
      rcases List.mem_filterMap.mp hq with ⟨v, hv, hmap⟩
      cases v with
      | none => simp at hmap
      | nan => simp at hmap
      | val r =>
        simp only [Option.some.injEq] at hmap
        exact hmap ▸ hv
    · intro hq
      exact List.mem_filterMap.mpr ⟨PyFloat.val q, hq, rfl⟩
  · intro hempty
    simp [calculate_market_median, hmem, hdb, hempty]
  · intro L hperm hsorted hne
    have hL : L = (validValues vals).insertionSort (· ≤ ·) :=
      List.eq_of_perm_of_sorted
        (hperm.trans (List.perm_insertionSort _ (validValues vals)).symm)
        hsorted (List.sorted_insertionSort _ (validValues vals))
    subst hL
    simp [calculate_market_median, hmem, hdb, hne, npMedian]

/-- Witness for C1 at a concrete input: a fresh analyzer, sample
`[1, NaN, 3, None, 2]`; the filtered sample `[1, 3, 2]` has odd size, so the
median is the middle element `2` of the sorted list `[1, 2, 3]`. -/
theorem calculate_market_median_cache_miss_witness :
    (calculate_market_median ⟨"v1", [], []⟩ "gross_margin" 0
      [.val 1, .nan, .val 3, .none, .val 2]).result = some 2 := by
  have h := calculate_market_median_cache_miss ⟨"v1", [], []⟩ "gross_margin" 0
    [.val 1, .nan, .val 3, .none, .val 2] (by decide) (by decide)
  rw [h.2.2 [1, 2, 3] (by decide) (by decide) (by decide)]
  decide

/-- C2: for every scalar value, `calculate_percentile` returns `None` exactly
when the valid subset of the sample is empty, and otherwise returns
`count(valid members <= value) / count(valid members)`, which lies in `[0,1]`,
equals `1` when the value is at or above every valid member (in particular at
or above the sample maximum), and equals `0` when the value is strictly below
every valid member (in particular strictly below the sample minimum). -/
theorem calculate_percentile_spec (value : ℚ) (vals : List PyFloat) :
    (validValues vals = [] → calculate_percentile value vals = Option.none) ∧
    (validValues vals ≠ [] →
      ∃ p : ℚ, calculate_percentile value vals = some p ∧
        p = ((validValues vals).countP fun v => decide (v ≤ value)) /
            ((validValues vals).length : ℚ) ∧
        0 ≤ p ∧ p ≤ 1 ∧
        ((∀ v ∈ validValues vals, v ≤ value) → p = 1) ∧
        ((∀ v ∈ validValues vals, value < v) → p = 0)) := by
  constructor
  · intro hempty
    simp [calculate_percentile, hempty]
  · intro hne
    have hlenpos : 0 < ((validValues vals).length : ℚ) := by
      have : 0 < (validValues vals).length := List.length_pos.mpr hne
      exact_mod_cast this
    refine ⟨_, by simp [calculate_percentile, hne], rfl, ?_, ?_, ?_, ?_⟩
    · positivity
    · rw [div_le_one hlenpos]
      exact_mod_cast List.countP_le_length _
    · intro hall
      have hcount : ((validValues vals).countP fun v => decide (v ≤ value)) =
          (validValues vals).length := by
        apply List.countP_eq_length.mpr
        intro v hv
        simpa using hall v hv
      rw [hcount, div_self (ne_of_gt hlenpos)]
    · intro hall
      have hcount : ((validValues vals).countP fun v => decide (v ≤ value)) = 0 := by
        apply List.countP_eq_zero.mpr
        intro v hv
        simpa using not_le.mpr (hall v hv)
      rw [hcount]
      simp

/-- Witness for C2 at the spec's end-to-end example (scaled to integers):
value `3` against the sample `[1, 2, 3, 4, 5]` has percentile `3/5`, and the
bounds and extremes hold on this sample. -/
theorem calculate_percentile_spec_witness :
    calculate_percentile 3 [.val 1, .val 2, .val 3, .val 4, .val 5] = some (3/5) ∧
    calculate_percentile 5 [.val 1, .val 2, .val 3, .val 4, .val 5] = some 1 ∧
    calculate_percentile 0 [.val 1, .val 2, .val 3, .val 4, .val 5] = some 0 := by
  refine ⟨?_, ?_, ?_⟩
  · obtain ⟨p, hp, hpeq, -, -, -, -⟩ :=
      (calculate_percentile_spec 3 [.val 1, .val 2, .val 3, .val 4, .val 5]).2 (by decide)
    have h1 : ((validValues [.val 1, .val 2, .val 3, .val 4, .val 5]).countP
        fun v => decide (v ≤ (3 : ℚ))) = 3 := by decide
    have h2 : (validValues [.val 1, .val 2, .val 3, .val 4, .val 5]).length = 5 := by decide
    rw [hp, hpeq, h1, h2]
    norm_num
  · obtain ⟨p, hp, -, -, -, hmax, -⟩ :=
      (calculate_percentile_spec 5 [.val 1, .val 2, .val 3, .val 4, .val 5]).2 (by decide)
    rw [hp, hmax (by decide)]
  · obtain ⟨p, hp, -, -, -, -, hmin⟩ :=
      (calculate_percentile_spec 0 [.val 1, .val 2, .val 3, .val 4, .val 5]).2 (by decide)
    rw [hp, hmin (by decide)]

theorem memLookup_cons_self (k : MKey) (v : ℚ) (c : List (MKey × ℚ)) :
    memLookup ((k, v) :: c) k = some v := by
  simp [memLookup, List.find?]

/-- C3 (amended): on the same analyzer instance, two sequential
`calculate_market_median` calls with identical arguments return the identical
value, and the second call never runs the median computation and never writes
to the persistent cache; the persistence layer's save is invoked exactly once
across the two calls provided the filtered sample is non-empty and neither
cache tier already holds an entry for the key (otherwise no save happens at
all). -/
theorem calculate_market_median_two_calls
    (s : AnalyzerState) (name : String) (d : ℤ) (vals : List PyFloat) :
    (calculate_market_median (calculate_market_median s name d vals).state
        name d vals).result = (calculate_market_median s name d vals).result ∧
    (calculate_market_median (calculate_market_median s name d vals).state
        name d vals).computed = false ∧
    (calculate_market_median (calculate_market_median s name d vals).state
        name d vals).saves = 0 ∧
    (validValues vals ≠ [] →
      memLookup s.median_cache ⟨name, d, s.cache_version⟩ = Option.none →
      get_cached_median s name d = Option.none →
      (calculate_market_median s name d vals).saves +
        (calculate_market_median (calculate_market_median s name d vals).state
          name d vals).saves = 1) := by
  cases hm : memLookup s.median_cache ⟨name, d, s.cache_version⟩ with
  | some v =>
    refine ⟨?_, ?_, ?_, ?_⟩ <;>
      simp [calculate_market_median, hm]
  | none =>
    cases hdb : get_cached_median s name d with
    | some v =>
      refine ⟨?_, ?_, ?_, ?_⟩ <;>
        simp [calculate_market_median, hm, hdb, memLookup_cons_self]
    | none =>
      by_cases hv : validValues vals = []
      · refine ⟨?_, ?_, ?_, ?_⟩ <;>
          simp [calculate_market_median, hm, hdb, hv]
      · refine ⟨?_, ?_, ?_, ?_⟩ <;>
          simp [calculate_market_median, hm, hdb, hv, memLookup_cons_self]

/-- C3 counterexample: the claim as stated fails for a sample whose filtered
form is empty — on a fresh analyzer, two sequential calls on the empty sample
invoke the persistence layer's save zero times, not exactly once. -/
theorem calculate_market_median_two_calls_cex :
    (calculate_market_median ⟨"v1", [], []⟩ "roe" 0 []).saves +
      (calculate_market_median (calculate_market_median ⟨"v1", [], []⟩ "roe" 0 []).state
        "roe" 0 []).saves = 0 ∧
    ¬ ((calculate_market_median ⟨"v1", [], []⟩ "roe" 0 []).saves +
      (calculate_market_median (calculate_market_median ⟨"v1", [], []⟩ "roe" 0 []).state
        "roe" 0 []).saves = 1) := by
  decide

/-- Witness for C3 at a concrete input: fresh analyzer, sample `[2]`; the two
sequential calls together invoke save exactly once. -/
theorem calculate_market_median_two_calls_witness :
    (calculate_market_median ⟨"v1", [], []⟩ "roe" 0 [.val 2]).saves +
      (calculate_market_median (calculate_market_median ⟨"v1", [], []⟩ "roe" 0 [.val 2]).state
        "roe" 0 [.val 2]).saves = 1 :=
  (calculate_market_median_two_calls ⟨"v1", [], []⟩ "roe" 0 [.val 2]).2.2.2
    (by decide) (by decide) (by decide)

/-- Model of `MarketAnalyzer.clear_cache` (`src/analysis/analyzer.py`): empty the
in-process cache and delete the persistent rows of the analyzer's own
`cache_version` through `Repository.clear_cache`. -/
def MarketAnalyzer_clear_cache (s : AnalyzerState) : AnalyzerState :=
  { s with median_cache := [], db := Repository_clear_cache s.cache_version s.db }

theorem find?_filter_version (db : List IndicatorMedian) (name : String)
    (d : ℤ) (ver : String) :
    (db.filter fun e => e.cache_version == ver).find? (medKeyMatch name d ver) =
      db.find? (medKeyMatch name d ver) := by
  induction db with
  | nil => simp
  | cons e db ih =>
    by_cases hv : e.cache_version = ver
    · cases hk : medKeyMatch name d ver e with
      | true => simp [List.filter_cons, hv, hk, List.find?_cons, ih]
      | false => simp [List.filter_cons, hv, hk, List.find?_cons, ih]
    · have hk : medKeyMatch name d ver e = false := by
        simp [medKeyMatch, hv]
      simp [List.filter_cons, hv, hk, List.find?_cons, ih]

theorem save_filter_other (db : List IndicatorMedian) (name : String) (d : ℤ)
    (m : ℚ) (ver : String) :
    (save_indicator_median db name d m ver).filter
        (fun e => !(e.cache_version == ver)) =
      db.filter fun e => !(e.cache_version == ver) := by
  cases h : db.find? (medKeyMatch name d ver) with
  | some e => simp only [save_indicator_median, h]
  | none =>
    simp only [save_indicator_median, h]
    simp [List.filter_append]

/-- C6: `MarketAnalyzer.clear_cache` removes exactly the persistent Median
Cache Entries of the analyzer's own cache version — every entry of any other
version is still present unchanged — and a `calculate_market_median`
computation neither reads entries of other versions (its result only depends
on the rows of its own version) nor overwrites them (the rows of all other
versions are left exactly as they were). -/
theorem clear_cache_version_isolation
    (s : AnalyzerState) (name : String) (d : ℤ) (vals : List PyFloat) :
    (∀ e : IndicatorMedian,
      e ∈ (MarketAnalyzer_clear_cache s).db ↔
        (e ∈ s.db ∧ e.cache_version ≠ s.cache_version)) ∧
    ((calculate_market_median
        { s with db := s.db.filter fun e => e.cache_version == s.cache_version }
        name d vals).result = (calculate_market_median s name d vals).result) ∧
    ((calculate_market_median s name d vals).state.db.filter
        (fun e => !(e.cache_version == s.cache_version)) =
      s.db.filter fun e => !(e.cache_version == s.cache_version)) := by
  refine ⟨?_, ?_, ?_⟩
  · intro e
    simp [MarketAnalyzer_clear_cache, Repository_clear_cache, List.mem_filter]
  · have hdbeq : get_cached_median
        { s with db := s.db.filter fun e => e.cache_version == s.cache_version }
        name d = get_cached_median s name d := by
      unfold get_cached_median
      dsimp only
      rw [find?_filter_version]
    cases hm : memLookup s.median_cache ⟨name, d, s.cache_version⟩ with
    | some v => simp [calculate_market_median, hm]
    | none =>
      cases hdb : get_cached_median s name d with
      | some v => simp [calculate_market_median, hm, hdb, hdbeq]
      | none =>
        by_cases hv : validValues vals = [] <;>
          simp [calculate_market_median, hm, hdb, hdbeq, hv]
  · cases hm : memLookup s.median_cache ⟨name, d, s.cache_version⟩ with
    | some v => simp [calculate_market_median, hm]
    | none =>
      cases hdb : get_cached_median s name d with
      | some v => simp [calculate_market_median, hm, hdb]
      | none =>
        by_cases hv : validValues vals = [] <;>
          simp [calculate_market_median, hm, hdb, hv, save_filter_other]

/-- Witness for C6 at a concrete store: clearing a `"v1"` analyzer's cache
keeps the `"v2"` entry and removes the `"v1"` entry. -/
theorem clear_cache_version_isolation_witness :
    (⟨"roe", 0, 7, "v2"⟩ : IndicatorMedian) ∈
      (MarketAnalyzer_clear_cache ⟨"v1", [],
        [⟨"roe", 0, 5, "v1"⟩, ⟨"roe", 0, 7, "v2"⟩]⟩).db ∧
    (⟨"roe", 0, 5, "v1"⟩ : IndicatorMedian) ∉
      (MarketAnalyzer_clear_cache ⟨"v1", [],
        [⟨"roe", 0, 5, "v1"⟩, ⟨"roe", 0, 7, "v2"⟩]⟩).db := by
  have h := (clear_cache_version_isolation
    ⟨"v1", [], [⟨"roe", 0, 5, "v1"⟩, ⟨"roe", 0, 7, "v2"⟩]⟩ "roe" 0 []).1
  constructor
  · exact (h ⟨"roe", 0, 7, "v2"⟩).mpr ⟨by decide, by decide⟩
  · intro hmem
    exact ((h ⟨"roe", 0, 5, "v1"⟩).mp hmem).2 rfl

/-- Model of `FinancialCalculator.calculate_working_capital_ratio`
(`src/analysis/calculator.py`): every additive component goes through Python's
`x or 0` (a missing `None` becomes `0`); working capital is
`ar + nr + rf + ca - ap - np - cl`; `total_assets == 0` yields `None`, and a
missing (`None`) `total_assets` makes the division raise a `TypeError`, which
the surrounding `except` turns into `None` as well. -/
def calculate_working_capital_ratio
    (accounts_receivable notes_receivable receivables_financing contract_assets
     accounts_payable notes_payable contract_liabilities total_assets : Option ℚ) :
    Option ℚ :=
  let ar := accounts_receivable.getD 0
  let nr := notes_receivable.getD 0
  let rf := receivables_financing.getD 0
  let ca := contract_assets.getD 0
  let ap := accounts_payable.getD 0
  let np := notes_payable.getD 0
  let cl := contract_liabilities.getD 0
  let working_capital := ar + nr + rf + ca - ap - np - cl
  match total_assets with
  | Option.none => Option.none
  | some t => if t = 0 then Option.none else some (working_capital / t)

/-- C9: every missing (`None`) optional component of the working-capital ratio
is treated exactly as the value `0` rather than failing the computation, a
zero denominator still yields `None`, and for a non-zero denominator the
result is the working-capital sum divided by total assets. -/
theorem calculate_working_capital_ratio_spec
    (ar nr rf ca ap np cl total_assets : Option ℚ) (t : ℚ) :
    (calculate_working_capital_ratio ar nr rf ca ap np cl total_assets =
      calculate_working_capital_ratio (some (ar.getD 0)) (some (nr.getD 0))
        (some (rf.getD 0)) (some (ca.getD 0)) (some (ap.getD 0))
        (some (np.getD 0)) (some (cl.getD 0)) total_assets) ∧
    (calculate_working_capital_ratio ar nr rf ca ap np cl (some 0) =
      Option.none) ∧
    (calculate_working_capital_ratio ar nr rf ca ap np cl (some t) =
      if t = 0 then Option.none
      else some ((ar.getD 0 + nr.getD 0 + rf.getD 0 + ca.getD 0 -
                  ap.getD 0 - np.getD 0 - cl.getD 0) / t)) := by
  refine ⟨?_, ?_, ?_⟩ <;> simp [calculate_working_capital_ratio]

/-- Witness for C9 at the spec's example: all components `None` except
accounts_receivable = 1000 and accounts_payable = 800, total_assets = 10000;
the ratio is `(1000 - 800) / 10000 = 1/50 = 0.02`. -/
theorem calculate_working_capital_ratio_spec_witness :
    calculate_working_capital_ratio (some 1000) Option.none Option.none
      Option.none (some 800) Option.none Option.none (some 10000) =
      some (1/50) := by
  have h := (calculate_working_capital_ratio_spec (some 1000) Option.none
    Option.none Option.none (some 800) Option.none Option.none
    (some 10000) 10000).2.2
  rw [h]
  norm_num

/-- Model of `FinancialCalculator.calculate_accounts_receivable_turnover`
(`src/analysis/calculator.py`): TTM revenue over average accounts receivable;
a zero average yields `None`. -/
def calculate_accounts_receivable_turnover (revenue_ttm ar_begin ar_end : ℚ) :
    Option ℚ :=
  let avg_ar := (ar_begin + ar_end) / 2
  if avg_ar = 0 then Option.none else some (revenue_ttm / avg_ar)

/-- Model of `FinancialCalculator.calculate_long_term_asset_turnover`
(`src/analysis/calculator.py`): TTM revenue over average non-current assets;
a zero average yields `None`.  Its parameters are named
`noncurrent_assets_begin` / `noncurrent_assets_end`. -/
def calculate_long_term_asset_turnover
    (revenue_ttm noncurrent_assets_begin noncurrent_assets_end : ℚ) : Option ℚ :=
  let avg := (noncurrent_assets_begin + noncurrent_assets_end) / 2
  if avg = 0 then Option.none else some (revenue_ttm / avg)

/-- A value in a log-scale indicator series, tagged by whether `np.log` was
applied to it: `logged r` records that `np.log` ran on the raw ratio `r`
(the tag carries the pre-log ratio, since only the application of the log is
at issue); `raw r` records that the raw ratio `r` was stored untransformed. -/
inductive TVal where
  | raw : ℚ → TVal
  | logged : ℚ → TVal
deriving DecidableEq

/-- Outcome of a Python call that may raise an uncaught exception. -/
inductive PyOutcome (α : Type) where
  | ok : α → PyOutcome α
  | typeError : PyOutcome α
deriving DecidableEq

/-- The `ar_turnover` entry of one row of `Orchestrator._calculate_indicators`
(`src/orchestrator.py`): computed only when `ttm_revenue` is truthy (not
`None`, not `0`) and a previous row exists; begin/end accounts receivable go
through `x or 0`; the ratio is log-transformed only when it is strictly
positive (`if ar_turnover is not None and ar_turnover > 0`), otherwise the
raw ratio itself is stored in the row. -/
def ar_turnover_indicator (ttm_revenue : Option ℚ) (has_prev : Bool)
    (prev_ar cur_ar : Option ℚ) : Option TVal :=
  match ttm_revenue, has_prev with
  | some t, true =>
    if t = 0 then Option.none
    else
      match calculate_accounts_receivable_turnover t (prev_ar.getD 0) (cur_ar.getD 0) with
      | Option.none => Option.none
      | some r => if 0 < r then some (TVal.logged r) else some (TVal.raw r)
  | _, _ => Option.none

/-- The `lt_asset_turnover` entry of one row of
`Orchestrator._calculate_indicators` (`src/orchestrator.py`): when
`ttm_revenue` is truthy and a previous row exists, the orchestrator invokes
`calculate_long_term_asset_turnover` with the keyword arguments
`long_term_operating_assets_begin` / `long_term_operating_assets_end`, which
do not exist in that function's signature
(`noncurrent_assets_begin` / `noncurrent_assets_end`), so the call raises an
uncaught `TypeError`; when the guard is not taken the entry stays `None`. -/
def lt_turnover_indicator (ttm_revenue : Option ℚ) (has_prev : Bool) :
    PyOutcome (Option TVal) :=
  match ttm_revenue, has_prev with
  | some t, true => if t = 0 then PyOutcome.ok Option.none else PyOutcome.typeError
  | _, _ => PyOutcome.ok Option.none

/-- One stock's contribution to the `ar_turnover` market sample in
`Orchestrator._get_market_indicator_values` (`src/orchestrator.py`): with that
date's accounts receivable and operating revenue, a value is appended only
when `ar and ar > 0 and revenue and revenue > 0` holds, and then only as
`np.log(turnover)` when `turnover > 0`. -/
def market_ar_contribution (accounts_receivable operating_revenue : Option ℚ) :
    Option TVal :=
  match accounts_receivable, operating_revenue with
  | some ar, some rev =>
    if ar ≠ 0 ∧ 0 < ar ∧ rev ≠ 0 ∧ 0 < rev then
      let turnover := rev / ar
      if 0 < turnover then some (TVal.logged turnover) else Option.none
    else Option.none
  | _, _ => Option.none

/-- The full `ar_turnover` market sample: one optional contribution per stock
row of (accounts receivable, operating revenue). -/
def market_values_ar (rows : List (Option ℚ × Option ℚ)) : List TVal :=
  rows.filterMap fun row => market_ar_contribution row.1 row.2

/-- The eleven balance-sheet components of long-term operating assets queried
by `Orchestrator._get_market_indicator_values` for `lt_asset_turnover`. -/
structure LtAssetFields where
  fixed_assets_net : Option ℚ
  construction_in_progress : Option ℚ
  productive_biological_assets : Option ℚ
  consumptive_biological_assets : Option ℚ
  oil_and_gas_assets : Option ℚ
  right_of_use_assets : Option ℚ
  intangible_assets : Option ℚ
  development_expenditure : Option ℚ
  goodwill : Option ℚ
  long_term_deferred_expenses : Option ℚ
  other_non_current_assets : Option ℚ
deriving DecidableEq

/-- Long-term operating assets as summed in
`Orchestrator._get_market_indicator_values`: each component through
`x or 0`. -/
def lt_operating_assets (b : LtAssetFields) : ℚ :=
  b.fixed_assets_net.getD 0 + b.construction_in_progress.getD 0 +
  b.productive_biological_assets.getD 0 + b.consumptive_biological_assets.getD 0 +
  b.oil_and_gas_assets.getD 0 + b.right_of_use_assets.getD 0 +
  b.intangible_assets.getD 0 + b.development_expenditure.getD 0 +
  b.goodwill.getD 0 + b.long_term_deferred_expenses.getD 0 +
  b.other_non_current_assets.getD 0

/-- One stock's contribution to the `lt_asset_turnover` market sample in
`Orchestrator._get_market_indicator_values`: `None` when the stock is missing
from the balance query; otherwise included only when
`lt_assets and lt_assets > 0 and revenue and revenue > 0` holds, and then
only as `np.log(turnover)` when `turnover > 0`. -/
def market_lt_contribution (balance_row : Option LtAssetFields)
    (operating_revenue : Option ℚ) : Option TVal :=
  match balance_row, operating_revenue with
  | some b, some rev =>
    let lt_assets := lt_operating_assets b
    if lt_assets ≠ 0 ∧ 0 < lt_assets ∧ rev ≠ 0 ∧ 0 < rev then
      let turnover := rev / lt_assets
      if 0 < turnover then some (TVal.logged turnover) else Option.none
    else Option.none
  | _, _ => Option.none

/-- The full `lt_asset_turnover` market sample. -/
def market_values_lt (rows : List (Option LtAssetFields × Option ℚ)) : List TVal :=
  rows.filterMap fun row => market_lt_contribution row.1 row.2

theorem market_ar_contribution_some {a? rev? : Option ℚ} {v : TVal}
    (h : market_ar_contribution a? rev? = some v) :
    ∃ r : ℚ, v = TVal.logged r ∧ 0 < r := by
  cases a? with
  | none => simp [market_ar_contribution] at h
  | some a =>
    cases rev? with
    | none => simp [market_ar_contribution] at h
    | some rev =>
      simp only [market_ar_contribution] at h
      by_cases h1 : a ≠ 0 ∧ 0 < a ∧ rev ≠ 0 ∧ 0 < rev
      · rw [if_pos h1] at h
        by_cases h2 : 0 < rev / a
        · rw [if_pos h2, Option.some_inj] at h
          exact ⟨rev / a, h.symm, h2⟩
        · rw [if_neg h2] at h
          exact Option.noConfusion h
      · rw [if_neg h1] at h
        exact Option.noConfusion h

theorem market_lt_contribution_some {b? : Option LtAssetFields} {rev? : Option ℚ}
    {v : TVal} (h : market_lt_contribution b? rev? = some v) :
    ∃ r : ℚ, v = TVal.logged r ∧ 0 < r := by
  cases b? with
  | none => simp [market_lt_contribution] at h
  | some b =>
    cases rev? with
    | none => simp [market_lt_contribution] at h
    | some rev =>
      simp only [market_lt_contribution] at h
      by_cases h1 : lt_operating_assets b ≠ 0 ∧ 0 < lt_operating_assets b ∧
          rev ≠ 0 ∧ 0 < rev
      · rw [if_pos h1] at h
        by_cases h2 : 0 < rev / lt_operating_assets b
        · rw [if_pos h2, Option.some_inj] at h
          exact ⟨rev / lt_operating_assets b, h.symm, h2⟩
        · rw [if_neg h2] at h
          exact Option.noConfusion h
      · rw [if_neg h1] at h
        exact Option.noConfusion h

/-- C4 counterexample: on the company-series side a computed non-positive raw
receivables-turnover ratio is kept raw in the series, not excluded: with TTM
revenue `4`, previous accounts receivable `-4` and current `0`, the raw ratio
is `4 / ((-4 + 0) / 2) = -2 ≤ 0`, yet the series entry is present and holds
the untransformed raw ratio. -/
theorem log_transform_policy_cex :
    ar_turnover_indicator (some 4) true (some (-4)) (some 0) =
      some (TVal.raw (-2)) := by
  have havg : calculate_accounts_receivable_turnover 4 (-4) 0 = some (-2) := by
    unfold calculate_accounts_receivable_turnover
    norm_num
  simp only [ar_turnover_indicator, Option.getD_some]
  rw [if_neg (by norm_num : ¬ (4 : ℚ) = 0), havg]
  norm_num

/-- C4 (amended): on the market-sample-construction side (for both log-scale
turnover indicators) every included sample member is the natural log of a
strictly positive raw ratio and every non-positive raw ratio is excluded from
the sample entirely; on the company-series side the log is likewise applied
only when the raw receivables-turnover ratio is strictly positive, but a
computed non-positive raw ratio is kept raw in the series rather than
excluded; the company-series long-term-asset turnover entry is never produced
when its guard is taken, because the call raises a `TypeError` on a
keyword-argument mismatch. -/
theorem log_transform_policy
    (rows_ar : List (Option ℚ × Option ℚ))
    (rows_lt : List (Option LtAssetFields × Option ℚ))
    (ttm : Option ℚ) (has_prev : Bool) (prev_ar cur_ar : Option ℚ) :
    (∀ v ∈ market_values_ar rows_ar, ∃ r : ℚ, v = TVal.logged r ∧ 0 < r) ∧
    (∀ v ∈ market_values_lt rows_lt, ∃ r : ℚ, v = TVal.logged r ∧ 0 < r) ∧
    (∀ a rev : ℚ, rev / a ≤ 0 →
      market_ar_contribution (some a) (some rev) = Option.none) ∧
    (∀ b : LtAssetFields, ∀ rev : ℚ, rev / lt_operating_assets b ≤ 0 →
      market_lt_contribution (some b) (some rev) = Option.none) ∧
    (∀ r : ℚ, ar_turnover_indicator ttm has_prev prev_ar cur_ar =
        some (TVal.logged r) → 0 < r) ∧
    (∀ r : ℚ, ar_turnover_indicator ttm has_prev prev_ar cur_ar =
        some (TVal.raw r) → r ≤ 0) ∧
    (∀ t : ℚ, ttm = some t → t ≠ 0 → has_prev = true →
      lt_turnover_indicator ttm has_prev = PyOutcome.typeError) := by
  refine ⟨?_, ?_, ?_, ?_, ?_, ?_, ?_⟩
  · intro v hv
    obtain ⟨row, -, hc⟩ := List.mem_filterMap.mp hv
    exact market_ar_contribution_some hc
  · intro v hv
    obtain ⟨row, -, hc⟩ := List.mem_filterMap.mp hv
    exact market_lt_contribution_some hc
  · intro a rev h
    simp only [market_ar_contribution]
    split_ifs with h1 h2
    · exact absurd h2 (not_lt.mpr h)
    · rfl
    · rfl
  · intro b rev h
    simp only [market_lt_contribution]
    split_ifs with h1 h2
    · exact absurd h2 (not_lt.mpr h)
    · rfl
    · rfl
  · intro r h
    cases ttm with
    | none => simp [ar_turnover_indicator] at h
    | some t =>
      cases has_prev with
      | false => simp [ar_turnover_indicator] at h
      | true =>
        simp only [ar_turnover_indicator] at h
        by_cases h0 : t = 0
        · rw [if_pos h0] at h
          exact Option.noConfusion h
        · rw [if_neg h0] at h
          cases hc : calculate_accounts_receivable_turnover t (prev_ar.getD 0) (cur_ar.getD 0) with
          | none => rw [hc] at h; simp at h
          | some x =>
            rw [hc] at h
            dsimp only at h
            by_cases hx : 0 < x
            · rw [if_pos hx, Option.some_inj] at h
              injection h with h
              exact h ▸ hx
            · rw [if_neg hx, Option.some_inj] at h
              exact absurd h (by simp)
  · intro r h
    cases ttm with
    | none => simp [ar_turnover_indicator] at h
    | some t =>
      cases has_prev with
      | false => simp [ar_turnover_indicator] at h
      | true =>
        simp only [ar_turnover_indicator] at h
        by_cases h0 : t = 0
        · rw [if_pos h0] at h
          exact Option.noConfusion h
        · rw [if_neg h0] at h
          cases hc : calculate_accounts_receivable_turnover t (prev_ar.getD 0) (cur_ar.getD 0) with
          | none => rw [hc] at h; simp at h
          | some x =>
            rw [hc] at h
            dsimp only at h
            by_cases hx : 0 < x
            · rw [if_pos hx, Option.some_inj] at h
              exact absurd h (by simp)
            · rw [if_neg hx, Option.some_inj] at h
              injection h with h
              exact h ▸ not_lt.mp hx
  · intro t ht ht0 hp
    subst ht hp
    simp [lt_turnover_indicator, ht0]

/-- Witness for C4 at concrete inputs: the market sample built from one stock
with accounts receivable `1` and revenue `2` contains only logged positive
ratios; a stock with accounts receivable `-1` and revenue `2` (raw ratio
`-2`) contributes nothing; and the company-side long-term-asset turnover call
with truthy TTM revenue `4` raises `TypeError`. -/
theorem log_transform_policy_witness :
    (∃ r : ℚ, TVal.logged 2 = TVal.logged r ∧ 0 < r) ∧
    market_ar_contribution (some (-1)) (some 2) = Option.none ∧
    lt_turnover_indicator (some 4) true = PyOutcome.typeError := by
  have h := log_transform_policy [(some 1, some 2)] [] (some 4) true
    Option.none Option.none
  refine ⟨?_, ?_, ?_⟩
  · apply h.1
    have h1 : market_ar_contribution (some 1) (some 2) = some (TVal.logged 2) := by
      simp only [market_ar_contribution]
      norm_num
    have hv : market_values_ar [(some 1, some 2)] = [TVal.logged 2] := by
      simp [market_values_ar, h1]
    rw [hv]
    exact List.mem_singleton.mpr rfl
  · exact h.2.2.1 (-1) 2 (by norm_num)
  · exact h.2.2.2.2.2.2 4 rfl (by norm_num) rfl

/-- One income-statement row as `_calculate_ttm_revenue_for_period`
(`src/orchestrator.py`) sees it: a report date (year and month) and the
cumulative `operating_revenue` of that period (possibly `None`). -/
structure IncomeRow where
  year : ℤ
  month : ℕ
  operating_revenue : Option ℚ
deriving DecidableEq

/-- The backward scan `for j in range(i - 1, -1, -1)` of
`_calculate_ttm_revenue_for_period`: walking indices `i-1, ..., 0`, return the
first cumulative revenue found in a row of the same calendar year whose
revenue is not `None`; rows of other years and same-year rows with `None`
revenue are passed over. -/
def scanPrevSameYear (rows : List IncomeRow) (year : ℤ) : ℕ → Option ℚ
  | 0 => Option.none
  | j + 1 =>
    match rows[j]? with
    | some row =>
      if row.year = year then
        match row.operating_revenue with
        | some p => some p
        | Option.none => scanPrevSameYear rows year j
      else scanPrevSameYear rows year j
    | Option.none => scanPrevSameYear rows year j

/-- The single-quarter reconstruction performed for index `i` inside
`_calculate_ttm_revenue_for_period`: `None` cumulative revenue aborts; a
March (`month == 3`) row is Q1, its cumulative value is the quarterly value;
otherwise the nearest same-year earlier cumulative value is subtracted, and
if none exists the row is treated as Q1. -/
def quarterlyFor (rows : List IncomeRow) (i : ℕ) : Option ℚ :=
  match rows[i]? with
  | Option.none => Option.none
  | some row =>
    match row.operating_revenue with
    | Option.none => Option.none
    | some cumulative =>
      if row.month = 3 then some cumulative
      else
        match scanPrevSameYear rows row.year i with
        | some prev => some (cumulative - prev)
        | Option.none => some cumulative

/-- The quarterly-collection loop of `_calculate_ttm_revenue_for_period` over
a list of indices: abort with `None` as soon as a reconstruction is
unavailable or strictly negative (`if quarterly is None or quarterly < 0:
return None`), otherwise collect the reconstructed values in order. -/
def ttmCollect (rows : List IncomeRow) : List ℕ → Option (List ℚ)
  | [] => some []
  | i :: rest =>
    match quarterlyFor rows i with
    | Option.none => Option.none
    | some q =>
      if q < 0 then Option.none
      else (ttmCollect rows rest).map (q :: ·)

/-- Model of `Orchestrator._calculate_ttm_revenue_for_period` (`src/orchestrator.py`):
`None` for indices below 3, otherwise the sum of the four consecutive
single-quarter reconstructions at indices `idx-3 .. idx` when all four are
available, and `None` otherwise. -/
def calculate_ttm_revenue_for_period (rows : List IncomeRow) (idx : ℕ) :
    Option ℚ :=
  if idx < 3 then Option.none
  else
    match ttmCollect rows [idx - 3, idx - 2, idx - 1, idx] with
    | Option.none => Option.none
    | some qs => if qs.length = 4 then some qs.sum else Option.none

/-- Model of `FinancialCalculator.convert_cumulative_to_quarterly`
(`src/analysis/calculator.py`): the current cumulative value when no previous
cumulative value exists (Q1), otherwise current minus previous. -/
def convert_cumulative_to_quarterly (current_cumulative : ℚ)
    (previous_cumulative : Option ℚ) : Option ℚ :=
  match previous_cumulative with
  | Option.none => some current_cumulative
  | some p => some (current_cumulative - p)

/-- The reconstruction rule in the words of the specification: the
single-quarter value for period `i` is the current cumulative figure minus the
cumulative figure of the nearest prior same-fiscal-year period that has one,
or just the current cumulative figure when no such prior period exists (first
fiscal quarter); `None` when the current cumulative figure is missing. -/
def specQuarterlyReconstruction (rows : List IncomeRow) (i : ℕ) : Option ℚ :=
  match rows[i]? with
  | Option.none => Option.none
  | some row =>
    match row.operating_revenue with
    | Option.none => Option.none
    | some cumulative =>
      match scanPrevSameYear rows row.year i with
      | some prev => some (cumulative - prev)
      | Option.none => some cumulative

theorem scanPrevSameYear_some {rows : List IncomeRow} {year : ℤ} {k : ℕ} {p : ℚ}
    (h : scanPrevSameYear rows year k = some p) :
    ∃ j, j < k ∧ ∃ row, rows[j]? = some row ∧ row.year = year ∧
      row.operating_revenue = some p := by
  induction k with
  | zero => simp [scanPrevSameYear] at h
  | succ j ih =>
    unfold scanPrevSameYear at h
    cases hj : rows[j]? with
    | none =>
      rw [hj] at h
      obtain ⟨j', hj', hrest⟩ := ih h
      exact ⟨j', Nat.lt_succ_of_lt hj', hrest⟩
    | some row =>
      rw [hj] at h
      dsimp only at h
      by_cases hy : row.year = year
      · rw [if_pos hy] at h
        cases hr : row.operating_revenue with
        | none =>
          rw [hr] at h
          obtain ⟨j', hj', hrest⟩ := ih h
          exact ⟨j', Nat.lt_succ_of_lt hj', hrest⟩
        | some p' =>
          rw [hr] at h
          dsimp only at h
          rw [Option.some_inj] at h
          exact ⟨j, Nat.lt_succ_self j, row, hj, hy, by rw [hr, h]⟩
      · rw [if_neg hy] at h
        obtain ⟨j', hj', hrest⟩ := ih h
        exact ⟨j', Nat.lt_succ_of_lt hj', hrest⟩

theorem quarterlyFor_eq_spec (rows : List IncomeRow)
    (hm : ∀ r ∈ rows, r.month = 3 ∨ r.month = 6 ∨ r.month = 9 ∨ r.month = 12)
    (hsorted : rows.Pairwise fun a b =>
      a.year < b.year ∨ (a.year = b.year ∧ a.month < b.month))
    (i : ℕ) :
    quarterlyFor rows i = specQuarterlyReconstruction rows i := by
  unfold quarterlyFor specQuarterlyReconstruction
  cases hi : rows[i]? with
  | none => rfl
  | some row =>
    dsimp only
    cases hr : row.operating_revenue with
    | none => rfl
    | some cum =>
      dsimp only
      by_cases h3 : row.month = 3
      · rw [if_pos h3]
        cases hs : scanPrevSameYear rows row.year i with
        | none => rfl
        | some p =>
          exfalso
          obtain ⟨j, hj, rowj, hrowj, hyear, hrev⟩ := scanPrevSameYear_some hs
          obtain ⟨hilen, hieq⟩ := List.getElem?_eq_some_iff.mp hi
          obtain ⟨hjlen, hjeq⟩ := List.getElem?_eq_some_iff.mp hrowj
          have hrel := List.pairwise_iff_getElem.mp hsorted j i hjlen hilen hj
          rw [hjeq, hieq] at hrel
          rcases hrel with hlt | ⟨-, hmonth⟩
          · exact absurd hyear (ne_of_lt hlt)
          · rw [h3] at hmonth
            have hmem : rowj ∈ rows := by
              rw [← hjeq]
              exact List.getElem_mem hjlen
            rcases hm rowj hmem with h | h | h | h <;> omega
      · rw [if_neg h3]

theorem ttmCollect_eq_some (rows : List IncomeRow) (l : List ℕ)
    (h : ∀ k ∈ l, (quarterlyFor rows k).isSome ∧ 0 ≤ (quarterlyFor rows k).getD 0) :
    ttmCollect rows l = some (l.map fun k => (quarterlyFor rows k).getD 0) := by
  induction l with
  | nil => rfl
  | cons k rest ih =>
    obtain ⟨hsome, hpos⟩ := h k (List.mem_cons_self k rest)
    cases hq : quarterlyFor rows k with
    | none => rw [hq] at hsome; simp at hsome
    | some q =>
      rw [hq] at hpos
      simp only [Option.getD_some] at hpos
      unfold ttmCollect
      rw [hq]
      dsimp only
      rw [if_neg (not_lt.mpr hpos)]
      rw [ih fun k' hk' => h k' (List.mem_cons_of_mem _ hk')]
      simp [hq]

theorem ttmCollect_eq_none (rows : List IncomeRow) (l : List ℕ)
    (h : ¬ ∀ k ∈ l, (quarterlyFor rows k).isSome ∧ 0 ≤ (quarterlyFor rows k).getD 0) :
    ttmCollect rows l = Option.none := by
  induction l with
  | nil => simp at h
  | cons k rest ih =>
    by_cases hk : (quarterlyFor rows k).isSome ∧ 0 ≤ (quarterlyFor rows k).getD 0
    · have hrest : ¬ ∀ k' ∈ rest,
          (quarterlyFor rows k').isSome ∧ 0 ≤ (quarterlyFor rows k').getD 0 := by
        intro hall
        exact h fun k' hk' => by
          rcases List.mem_cons.mp hk' with rfl | hk''
          · exact hk
          · exact hall k' hk''
      cases hq : quarterlyFor rows k with
      | none => rw [hq] at hk; simp at hk
      | some q =>
        rw [hq] at hk
        simp only [Option.getD_some] at hk
        unfold ttmCollect
        rw [hq]
        dsimp only
        rw [if_neg (not_lt.mpr hk.2)]
        rw [ih hrest]
        rfl
    · cases hq : quarterlyFor rows k with
      | none =>
        unfold ttmCollect
        rw [hq]
      | some q =>
        rw [hq] at hk
        simp only [Option.isSome_some, Option.getD_some, true_and] at hk
        unfold ttmCollect
        rw [hq]
        dsimp only
        rw [if_pos (not_le.mp hk)]

/-- C5 (amended): under well-formed report dates (quarter-end months, strictly
increasing), the single-quarter reconstruction of
`_calculate_ttm_revenue_for_period` is exactly the spec's rule — current
cumulative minus the nearest prior same-fiscal-year cumulative, or just the
current cumulative when no previous exists — and the TTM value is the sum of
exactly the four consecutive reconstructions at `idx-3 .. idx` when all four
are available **and non-negative**, and `None` otherwise (fewer than four
periods, an unavailable reconstruction, or — beyond the claim as stated — a
strictly negative reconstruction); `convert_cumulative_to_quarterly` realises
the same per-quarter rule. -/
theorem ttm_reconstruction (rows : List IncomeRow) (idx : ℕ)
    (hm : ∀ r ∈ rows, r.month = 3 ∨ r.month = 6 ∨ r.month = 9 ∨ r.month = 12)
    (hsorted : rows.Pairwise fun a b =>
      a.year < b.year ∨ (a.year = b.year ∧ a.month < b.month))
    (hidx : 3 ≤ idx) :
    (∀ i : ℕ, quarterlyFor rows i = specQuarterlyReconstruction rows i) ∧
    (∀ j : ℕ, j < 3 → calculate_ttm_revenue_for_period rows j = Option.none) ∧
    ((∀ k ∈ [idx - 3, idx - 2, idx - 1, idx],
        (quarterlyFor rows k).isSome ∧ 0 ≤ (quarterlyFor rows k).getD 0) →
      calculate_ttm_revenue_for_period rows idx =
        some (([idx - 3, idx - 2, idx - 1, idx].map
          fun k => (quarterlyFor rows k).getD 0).sum)) ∧
    ((¬ ∀ k ∈ [idx - 3, idx - 2, idx - 1, idx],
        (quarterlyFor rows k).isSome ∧ 0 ≤ (quarterlyFor rows k).getD 0) →
      calculate_ttm_revenue_for_period rows idx = Option.none) ∧
    (∀ c : ℚ, convert_cumulative_to_quarterly c Option.none = some c) ∧
    (∀ c p : ℚ, convert_cumulative_to_quarterly c (some p) = some (c - p)) := by
  refine ⟨quarterlyFor_eq_spec rows hm hsorted, ?_, ?_, ?_, fun c => rfl,
    fun c p => rfl⟩
  · intro j hj
    unfold calculate_ttm_revenue_for_period
    rw [if_pos hj]
  · intro hall
    unfold calculate_ttm_revenue_for_period
    rw [if_neg (by omega : ¬ idx < 3), ttmCollect_eq_some rows _ hall]
    simp
  · intro hnone
    unfold calculate_ttm_revenue_for_period
    rw [if_neg (by omega : ¬ idx < 3), ttmCollect_eq_none rows _ hnone]

/-- C5 counterexample: for the one-fiscal-year cumulative values
`[Q1=100, Q2=50, Q3=300, Q4=500]` all four periods are present and all four
single-quarter reconstructions are available (`[100, -50, 250, 200]`), yet the
TTM result is `None` rather than their sum `500` — the negative Q2
reconstruction is rejected, which the claim as stated does not allow. -/
theorem ttm_reconstruction_cex :
    calculate_ttm_revenue_for_period
        [⟨2020, 3, some 100⟩, ⟨2020, 6, some 50⟩, ⟨2020, 9, some 300⟩,
         ⟨2020, 12, some 500⟩] 3 = Option.none ∧
    quarterlyFor [⟨2020, 3, some 100⟩, ⟨2020, 6, some 50⟩, ⟨2020, 9, some 300⟩,
         ⟨2020, 12, some 500⟩] 0 = some 100 ∧
    quarterlyFor [⟨2020, 3, some 100⟩, ⟨2020, 6, some 50⟩, ⟨2020, 9, some 300⟩,
         ⟨2020, 12, some 500⟩] 1 = some (-50) ∧
    quarterlyFor [⟨2020, 3, some 100⟩, ⟨2020, 6, some 50⟩, ⟨2020, 9, some 300⟩,
         ⟨2020, 12, some 500⟩] 2 = some 250 ∧
    quarterlyFor [⟨2020, 3, some 100⟩, ⟨2020, 6, some 50⟩, ⟨2020, 9, some 300⟩,
         ⟨2020, 12, some 500⟩] 3 = some 200 ∧
    (100 : ℚ) + (-50) + 250 + 200 = 500 := by
  refine ⟨?_, ?_, ?_, ?_, ?_, by norm_num⟩ <;>
    norm_num [calculate_ttm_revenue_for_period, ttmCollect, quarterlyFor,
      scanPrevSameYear]

/-- Witness for C5 at the spec's round-trip example: cumulative values
`[Q1=100, Q2=250, Q3=300, Q4=500]` reconstruct to `[100, 150, 50, 200]` and
their TTM sum is `500`. -/
theorem ttm_reconstruction_witness :
    calculate_ttm_revenue_for_period
        [⟨2020, 3, some 100⟩, ⟨2020, 6, some 250⟩, ⟨2020, 9, some 300⟩,
         ⟨2020, 12, some 500⟩] 3 = some 500 ∧
    quarterlyFor [⟨2020, 3, some 100⟩, ⟨2020, 6, some 250⟩, ⟨2020, 9, some 300⟩,
         ⟨2020, 12, some 500⟩] 0 = some 100 ∧
    quarterlyFor [⟨2020, 3, some 100⟩, ⟨2020, 6, some 250⟩, ⟨2020, 9, some 300⟩,
         ⟨2020, 12, some 500⟩] 1 = some 150 ∧
    quarterlyFor [⟨2020, 3, some 100⟩, ⟨2020, 6, some 250⟩, ⟨2020, 9, some 300⟩,
         ⟨2020, 12, some 500⟩] 2 = some 50 ∧
    quarterlyFor [⟨2020, 3, some 100⟩, ⟨2020, 6, some 250⟩, ⟨2020, 9, some 300⟩,
         ⟨2020, 12, some 500⟩] 3 = some 200 := by
  have h := ttm_reconstruction
    [⟨2020, 3, some 100⟩, ⟨2020, 6, some 250⟩, ⟨2020, 9, some 300⟩,
     ⟨2020, 12, some 500⟩] 3 (by decide) (by decide) (by norm_num)
  refine ⟨?_, ?_, ?_, ?_, ?_⟩
  · rw [h.2.2.1 (by norm_num [quarterlyFor, scanPrevSameYear])]
    norm_num [quarterlyFor, scanPrevSameYear]
  all_goals norm_num [quarterlyFor, scanPrevSameYear]

/-- C10: whenever one of the four single-quarter reconstructions entering the
TTM window is available but strictly negative, the whole TTM result is `None`,
even though all four periods are present and numeric. -/
theorem ttm_negative_quarter_rejected (rows : List IncomeRow) (idx i : ℕ)
    (v : ℚ) (hidx : 3 ≤ idx) (hlo : idx - 3 ≤ i) (hhi : i ≤ idx)
    (hq : quarterlyFor rows i = some v) (hneg : v < 0) :
    calculate_ttm_revenue_for_period rows idx = Option.none := by
  unfold calculate_ttm_revenue_for_period
  rw [if_neg (by omega : ¬ idx < 3)]
  rw [ttmCollect_eq_none rows _ ?_]
  intro hall
  have hi : i ∈ [idx - 3, idx - 2, idx - 1, idx] := by
    simp only [List.mem_cons, List.mem_singleton]
    omega
  have := (hall i hi).2
  rw [hq] at this
  simp only [Option.getD_some] at this
  exact absurd hneg (not_lt.mpr this)

/-- Witness for C10: same fiscal year with cumulative values
`[100, 50, 300, 500]` — the Q2 reconstruction is `-50 < 0` and the TTM result
is `None`. -/
theorem ttm_negative_quarter_rejected_witness :
    calculate_ttm_revenue_for_period
        [⟨2021, 3, some 100⟩, ⟨2021, 6, some 50⟩, ⟨2021, 9, some 300⟩,
         ⟨2021, 12, some 500⟩] 3 = Option.none := by
  exact ttm_negative_quarter_rejected
    [⟨2021, 3, some 100⟩, ⟨2021, 6, some 50⟩, ⟨2021, 9, some 300⟩,
     ⟨2021, 12, some 500⟩] 3 1 (-50) (by norm_num) (by norm_num) (by norm_num)
    (by norm_num [quarterlyFor, scanPrevSameYear]) (by norm_num)

/-- One Comparison Result Row as built in `Orchestrator._compare_with_market`
(`src/orchestrator.py`): report date, company value, market median,
percentile. -/
structure ComparisonRow where
  report_date : ℤ
  company_value : ℚ
  market_median : Option ℚ
  percentile : Option ℚ
deriving DecidableEq

/-- The inner per-date loop of `Orchestrator._compare_with_market`: for each
(report_date, company value) pair, skip dates whose market sample is empty,
otherwise compute the cached market median and the fresh percentile and
append a Comparison Result Row, threading the analyzer state. -/
def compare_rows (s : AnalyzerState) (ind : String)
    (market_values_of : String → ℤ → List PyFloat) :
    List (ℤ × ℚ) → List ComparisonRow × AnalyzerState
  | [] => ([], s)
  | (d, v) :: rest =>
    let market_values := market_values_of ind d
    if market_values.isEmpty then compare_rows s ind market_values_of rest
    else
      let c := calculate_market_median s ind d market_values
      let pct := calculate_percentile v market_values
      let next := compare_rows c.state ind market_values_of rest
      (⟨d, v, c.result, pct⟩ :: next.1, next.2)

/-- The outer per-indicator loop of `Orchestrator._compare_with_market`: for
each indicator column, drop the `None` entries of the company series
(`notna()`), skip the indicator entirely when nothing is left (`continue`),
and record the indicator's rows only when at least one was produced
(`if comparison_results:`).  The per-indicator `_distribution` summary
entries, stored under separate keys, are not modelled. -/
def compare_with_market (s : AnalyzerState)
    (market_values_of : String → ℤ → List PyFloat)
    (company_series : String → List (ℤ × Option ℚ)) :
    List String → List (String × List ComparisonRow) × AnalyzerState
  | [] => ([], s)
  | col :: rest =>
    let company_data := (company_series col).filterMap
      fun p => p.2.map fun v => (p.1, v)
    if company_data.isEmpty then
      compare_with_market s market_values_of company_series rest
    else
      let res := compare_rows s col market_values_of company_data
      let next := compare_with_market res.2 market_values_of company_series rest
      if res.1.isEmpty then next
      else ((col, res.1) :: next.1, next.2)

/-- Model of `Orchestrator._get_company_data` reduced to its outcome shape
(`src/orchestrator.py`): `None` when any of the three statement queries comes
back empty (`if not balance_sheets or not income_statements or not
cashflow_statements: return None`), otherwise the three row sets. -/
def get_company_data {α β γ : Type} (balance_sheets : List α)
    (income_statements : List β) (cashflow_statements : List γ) :
    Option (List α × List β × List γ) :=
  if balance_sheets.isEmpty || income_statements.isEmpty ||
      cashflow_statements.isEmpty then Option.none
  else some (balance_sheets, income_statements, cashflow_statements)

/-- The successful analysis result assembled by `Orchestrator.analyze_company`
(company info, indicator table, market comparison). -/
structure AnalysisResult (ι κ : Type) where
  stock_code : String
  indicators : ι
  market_comparison : κ
deriving DecidableEq

/-- Model of `Orchestrator.analyze_company` control flow (`src/orchestrator.py`):
`None` when the database is not ready, `None` when the company data cannot be
assembled, and otherwise a structured result; the indicator computation and
the market comparison are taken as parameters since only the control flow is
at issue here. -/
def analyze_company {α β γ ι κ : Type} (database_ready : Bool)
    (stock_code : String) (balance_sheets : List α)
    (income_statements : List β) (cashflow_statements : List γ)
    (calc_indicators : List α × List β × List γ → ι)
    (compare : ι → κ) : Option (AnalysisResult ι κ) :=
  if !database_ready then Option.none
  else
    match get_company_data balance_sheets income_statements cashflow_statements with
    | Option.none => Option.none
    | some cd => some ⟨stock_code, calc_indicators cd, compare (calc_indicators cd)⟩

theorem compare_with_market_all_nonempty
    (market_values_of : String → ℤ → List PyFloat)
    (company_series : String → List (ℤ × Option ℚ)) :
    ∀ (cols : List String) (s : AnalyzerState),
      ((compare_with_market s market_values_of company_series cols).1.all
        fun e => !e.2.isEmpty) = true := by
  intro cols
  induction cols with
  | nil => intro s; rfl
  | cons col rest ih =>
    intro s
    unfold compare_with_market
    dsimp only
    split
    · exact ih s
    · split
      · exact ih _
      · rename_i hres
        simp only [List.all_cons, Bool.and_eq_true]
        exact ⟨by simpa using hres, ih _⟩

/-- C7: a caller can distinguish "could not run" from "ran fine": the
orchestrator returns the explicit no-result `None` exactly when the database
is not ready or any of the company's three statement tables is empty, and the
market-comparison mapping never carries an indicator entry with an empty row
list — an indicator whose series yields no usable periods is absent rather
than present-but-empty. -/
theorem no_analysis_possible_explicit
    {α β γ ι κ : Type} (database_ready : Bool) (stock_code : String)
    (balance_sheets : List α) (income_statements : List β)
    (cashflow_statements : List γ)
    (calc_indicators : List α × List β × List γ → ι) (cmp : ι → κ)
    (s : AnalyzerState) (cols : List String)
    (market_values_of : String → ℤ → List PyFloat)
    (company_series : String → List (ℤ × Option ℚ)) :
    (analyze_company database_ready stock_code balance_sheets income_statements
        cashflow_statements calc_indicators cmp = Option.none ↔
      (database_ready = false ∨ balance_sheets = [] ∨ income_statements = [] ∨
        cashflow_statements = [])) ∧
    (((compare_with_market s market_values_of company_series cols).1.all
      fun e => !e.2.isEmpty) = true) := by
  constructor
  · cases database_ready with
    | false => simp [analyze_company]
    | true =>
      by_cases h : balance_sheets = [] ∨ income_statements = [] ∨
          cashflow_statements = []
      · have hg : get_company_data balance_sheets income_statements
            cashflow_statements = Option.none := by
          unfold get_company_data
          rcases h with h | h | h <;> simp [h]
        simp only [analyze_company, hg]
        simp [h]
      · push_neg at h
        have hg : get_company_data balance_sheets income_statements
            cashflow_statements =
            some (balance_sheets, income_statements, cashflow_statements) := by
          unfold get_company_data
          simp [List.isEmpty_iff, h.1, h.2.1, h.2.2]
        simp only [analyze_company, hg]
        simp [h.1, h.2.1, h.2.2]
  · exact compare_with_market_all_nonempty market_values_of company_series cols s

/-- One output row of `MarketAnalyzer.analyze_company_vs_market`
(`src/analysis/analyzer.py`). -/
structure CompanyMarketRow where
  report_date : ℤ
  stock_code : String
  company_value : ℚ
  market_median : Option ℚ
  percentile : Option ℚ
deriving DecidableEq

/-- Lookup of a report date in the market-data mapping (a Python dict keyed by
date), used for `if report_date not in market_data` and
`market_data[report_date]`. -/
def marketLookup (market_data : List (ℤ × List PyFloat)) (d : ℤ) :
    Option (List PyFloat) :=
  (market_data.find? fun p => p.1 == d).map (·.2)

/-- Model of `MarketAnalyzer.analyze_company_vs_market` (`src/analysis/analyzer.py`):
walk the company series in order; skip each date that is absent from the
market data; otherwise compute the (cached) market median and the percentile
of the company value and append one result row, threading the analyzer
state. -/
def analyze_company_vs_market (s : AnalyzerState) (stock_code ind : String)
    (market_data : List (ℤ × List PyFloat)) :
    List (ℤ × ℚ) → List CompanyMarketRow × AnalyzerState
  | [] => ([], s)
  | (d, v) :: rest =>
    match marketLookup market_data d with
    | Option.none => analyze_company_vs_market s stock_code ind market_data rest
    | some market_values =>
      let c := calculate_market_median s ind d market_values
      let pct := calculate_percentile v market_values
      let next := analyze_company_vs_market c.state stock_code ind market_data rest
      (⟨d, stock_code, v, c.result, pct⟩ :: next.1, next.2)

theorem analyze_company_vs_market_dates (stock_code ind : String)
    (market_data : List (ℤ × List PyFloat)) :
    ∀ (company_values : List (ℤ × ℚ)) (s : AnalyzerState),
      ((analyze_company_vs_market s stock_code ind market_data
          company_values).1.map (·.report_date)) =
        (company_values.map Prod.fst).filter
          fun d => (marketLookup market_data d).isSome := by
  intro company_values
  induction company_values with
  | nil => intro s; rfl
  | cons p rest ih =>
    intro s
    obtain ⟨d, v⟩ := p
    cases hl : marketLookup market_data d with
    | none =>
      simp [analyze_company_vs_market, hl, ih, List.filter_cons]
    | some mv =>
      simp [analyze_company_vs_market, hl, ih, List.filter_cons]

/-- C8: the rows of `analyze_company_vs_market` carry exactly the company
dates that also have market data, in the order of the company series — a date
without a market sample produces no row and no error; with strictly ascending
(hence duplicate-free) company dates the rows are strictly ascending and each
common date produces exactly one row. -/
theorem analyze_company_vs_market_rows (s : AnalyzerState)
    (stock_code ind : String) (company_values : List (ℤ × ℚ))
    (market_data : List (ℤ × List PyFloat)) :
    (((analyze_company_vs_market s stock_code ind market_data
        company_values).1.map (·.report_date)) =
      (company_values.map Prod.fst).filter
        fun d => (marketLookup market_data d).isSome) ∧
    (List.Chain' (· < ·) (company_values.map Prod.fst) →
      List.Chain' (· < ·)
        ((analyze_company_vs_market s stock_code ind market_data
          company_values).1.map (·.report_date))) ∧
    ((company_values.map Prod.fst).Nodup → ∀ d : ℤ,
      ((analyze_company_vs_market s stock_code ind market_data
          company_values).1.map (·.report_date)).count d =
        if d ∈ company_values.map Prod.fst ∧ (marketLookup market_data d).isSome
        then 1 else 0) := by
  refine ⟨analyze_company_vs_market_dates stock_code ind market_data
    company_values s, ?_, ?_⟩
  · intro hch
    rw [analyze_company_vs_market_dates]
    rw [List.chain'_iff_pairwise] at hch ⊢
    exact hch.sublist (List.filter_sublist _)
  · intro hnd d
    rw [analyze_company_vs_market_dates]
    by_cases hmem : d ∈ company_values.map Prod.fst
    · by_cases hs : (marketLookup market_data d).isSome
      · rw [if_pos ⟨hmem, hs⟩, List.count_filter (by simpa using hs),
          List.count_eq_one_of_mem hnd hmem]
      · rw [if_neg fun hc => hs hc.2, List.count_eq_zero.mpr]
        intro hin
        exact hs (by simpa using (List.mem_filter.mp hin).2)
    · rw [if_neg fun hc => hmem hc.1, List.count_eq_zero.mpr]
      intro hin
      exact hmem ((List.filter_sublist _).mem hin)

/-- Witness for C8 at concrete inputs: company dates `[1, 2]`, market data
only for date `2` — exactly one row, for date `2`, in ascending order. -/
theorem analyze_company_vs_market_rows_witness :
    (((analyze_company_vs_market ⟨"v1", [], []⟩ "SH600519" "gross_margin"
        [(2, [PyFloat.val 1])] [(1, 5), (2, 6)]).1.map (·.report_date)) = [2]) ∧
    List.Chain' (· < ·)
      ((analyze_company_vs_market ⟨"v1", [], []⟩ "SH600519" "gross_margin"
        [(2, [PyFloat.val 1])] [(1, 5), (2, 6)]).1.map (·.report_date)) ∧
    (((analyze_company_vs_market ⟨"v1", [], []⟩ "SH600519" "gross_margin"
        [(2, [PyFloat.val 1])] [(1, 5), (2, 6)]).1.map (·.report_date)).count 2 = 1) ∧
    (((analyze_company_vs_market ⟨"v1", [], []⟩ "SH600519" "gross_margin"
        [(2, [PyFloat.val 1])] [(1, 5), (2, 6)]).1.map (·.report_date)).count 1 = 0) := by
  have h := analyze_company_vs_market_rows ⟨"v1", [], []⟩ "SH600519"
    "gross_margin" [(1, 5), (2, 6)] [(2, [PyFloat.val 1])]
  refine ⟨?_, h.2.1 (by norm_num [List.chain'_cons]), ?_, ?_⟩
  · rw [h.1]
    decide
  · rw [h.2.2 (by decide) 2]
    decide
  · rw [h.2.2 (by decide) 1]
    decide
